import Mathlib

/-!
Verification development for the PostgreSQL type-resolution and value-codec
engine of the `sqlx` client library.

The definitions below are shallow embeddings of the Rust source:

* `src/sqlx-core/src/postgres/connection/describe.rs` — type resolver,
  nullability inference (`get_nullable_for_columns`, `nullables_from_explain`,
  `visit_plan`, `maybe_fetch_type_info_by_oid`, `fetch_declared`);
* `src/sqlx-core/src/postgres/types/record.rs` — the composite/record
  decoder (`PgRecordDecoder`);
* `src/sqlx-core/src/postgres/types/{int,float,bool,json}.rs` — the
  fixed-width scalar and JSON codecs.

Machine integers are modelled as `Nat` / `Int` with explicit reduction
modulo `2 ^ w`; byte buffers are `List Nat` (each entry a byte value);
floating-point values are modelled by their IEEE bit patterns, which is
exact for this code because the Rust float codecs only move bit patterns
(`to_be_bytes` / `BigEndian::read_fNN`) and never do arithmetic on them.
-/

namespace Sqlx

/-! ## Wire formats (src/sqlx-core/src/postgres/value.rs, `PgValueFormat`) -/

/-- The two PostgreSQL wire formats for a value. -/
inductive PgValueFormat : Type where
  | binary
  | text
deriving DecidableEq, Repr

/-! ## Nullability combination (describe.rs, `get_nullable_for_columns`)

`get_nullable_for_columns` first runs the catalog query
`SELECT NOT pg_attribute.attnotnull ...` producing one `Option<bool>` per
column (`nullables`), then — unless the server reports `crdb_version` —
obtains `nullable_patch` from `nullables_from_explain` and runs

    for (nullable, patch) in nullables.iter_mut().zip(nullable_patch) {
        *nullable = patch.or(*nullable);
    }
-/

/-- Rust `Option::or`: `a.or(b)` is `a` when `a` is `some`, else `b`. -/
def optionOr {α : Type} (a b : Option α) : Option α :=
  match a with
  | some x => some x
  | none => b

/-- The patch loop of `get_nullable_for_columns`: the zip of
`nullables.iter_mut()` with `nullable_patch` updates each of the first
`min` entries to `patch.or(*nullable)`; entries of `nullables` beyond the
length of the patch vector are left unchanged. -/
def patchNullables : List (Option Bool) → List (Option Bool) → List (Option Bool)
  | [], _ => []
  | ns, [] => ns
  | n :: ns, p :: ps => optionOr p n :: patchNullables ns ps

/-- `get_nullable_for_columns`, abstracted over the two evidence sources:
`catalogNullables` is the result of the `NOT attnotnull` catalog query and
`planNullables` the result of `nullables_from_explain`; `supportsExplain`
is the absence of the `crdb_version` parameter status.  When explain is
not supported the catalog evidence is returned as-is; otherwise each entry
is replaced by `patch.or(*nullable)`. -/
def get_nullable_for_columns (catalogNullables planNullables : List (Option Bool))
    (supportsExplain : Bool) : List (Option Bool) :=
  if supportsExplain then patchNullables catalogNullables planNullables
  else catalogNullables

/-! ## Fixed-width scalar binary codecs
(src/sqlx-core/src/postgres/types/{int,float,bool}.rs)

Encoding is `buf.extend(&v.to_be_bytes())`; decoding is
`BigEndian::read_iNN` / `BigEndian::read_fNN` (first NN/8 bytes of the
buffer) and, for `bool`, `value.as_bytes()?[0] != 0`.  Signed integers are
modelled as `Int` with two's-complement byte images; floats by their IEEE
bit patterns (the Rust code only transports the bits). -/

/-- Big-endian byte image of `n`, `w` bytes wide (the semantics of
`to_be_bytes` on a `w`-byte machine integer whose bit pattern is `n`). -/
def natToBeBytes : Nat → Nat → List Nat
  | 0, _ => []
  | w + 1, n => (n / 256 ^ w % 256) :: natToBeBytes w n

/-- Big-endian read of a byte list as an unsigned number. -/
def readBeU : List Nat → Nat
  | [] => 0
  | b :: bs => b * 256 ^ bs.length + readBeU bs

theorem natToBeBytes_length (w n : Nat) : (natToBeBytes w n).length = w := by
  induction w generalizing n with
  | zero => rfl
  | succ w ih => simp [natToBeBytes, ih]

theorem readBeU_natToBeBytes (w n : Nat) : readBeU (natToBeBytes w n) = n % 256 ^ w := by
  induction w generalizing n with
  | zero => simp [natToBeBytes, readBeU, Nat.mod_one]
  | succ w ih =>
    simp only [natToBeBytes, readBeU, natToBeBytes_length, ih]
    rw [pow_succ, Nat.mod_mul]
    ring

/-- `i16::to_be_bytes` (the two's-complement bit pattern, big-endian). -/
def i16_to_be_bytes (v : Int) : List Nat := natToBeBytes 2 ((v % 2 ^ 16).toNat)

/-- `BigEndian::read_i16` on the first two bytes of the buffer. -/
def read_i16_be (bs : List Nat) : Int :=
  let n := readBeU (bs.take 2)
  if n < 2 ^ 15 then (n : Int) else (n : Int) - 2 ^ 16

/-- `i32::to_be_bytes`. -/
def i32_to_be_bytes (v : Int) : List Nat := natToBeBytes 4 ((v % 2 ^ 32).toNat)

/-- `BigEndian::read_i32` on the first four bytes of the buffer. -/
def read_i32_be (bs : List Nat) : Int :=
  let n := readBeU (bs.take 4)
  if n < 2 ^ 31 then (n : Int) else (n : Int) - 2 ^ 32

/-- `i64::to_be_bytes`. -/
def i64_to_be_bytes (v : Int) : List Nat := natToBeBytes 8 ((v % 2 ^ 64).toNat)

/-- `BigEndian::read_i64` on the first eight bytes of the buffer. -/
def read_i64_be (bs : List Nat) : Int :=
  let n := readBeU (bs.take 8)
  if n < 2 ^ 63 then (n : Int) else (n : Int) - 2 ^ 64

/-- `f32::to_be_bytes`, acting on the IEEE bit pattern (`to_bits`). -/
def f32_to_be_bytes (bits : Nat) : List Nat := natToBeBytes 4 bits

/-- `BigEndian::read_f32`, producing the IEEE bit pattern (`from_bits`). -/
def read_f32_be (bs : List Nat) : Nat := readBeU (bs.take 4)

/-- `f64::to_be_bytes`, acting on the IEEE bit pattern (`to_bits`). -/
def f64_to_be_bytes (bits : Nat) : List Nat := natToBeBytes 8 bits

/-- `BigEndian::read_f64`, producing the IEEE bit pattern (`from_bits`). -/
def read_f64_be (bs : List Nat) : Nat := readBeU (bs.take 8)

/-- `bool` binary encoding: `buf.push(*self as u8)`. -/
def encode_bool (b : Bool) : List Nat := [b.toNat]

/-- `bool` binary decoding: `value.as_bytes()?[0] != 0`; `none` models the
index panic on an empty buffer. -/
def decode_bool_binary : List Nat → Option Bool
  | [] => none
  | b :: _ => some (decide (b ≠ 0))

/-! ## JSON decoding (src/sqlx-core/src/postgres/types/json.rs)

`<Json<T> as Decode>::decode`: in binary format, when the resolved type's
OID is `jsonb`, it asserts the first payload byte equals `1` (a failed
assertion is a Rust panic, not an `Err`) and strips it; in every other
case the buffer is passed to `serde_json::from_slice` unchanged.  We model
the payload preparation step: the value returned is the byte slice handed
to the JSON parser. -/

/-- Outcome of running a decoder: a result, a returned error, or a Rust
panic (assertion failure / out-of-bounds index). -/
inductive DecodeOutcome (α : Type) : Type where
  | ok (val : α)
  | err (msg : String)
  | panicked (msg : String)
deriving DecidableEq, Repr

/-- OID of the built-in `jsonb` type (`PgBuiltinType::Jsonb.oid()`). -/
def jsonbOid : Nat := 3802

/-- OID of the built-in `json` type (`PgBuiltinType::Json.oid()`). -/
def jsonOid : Nat := 114

/-- The payload-preparation step of `<Json<T> as Decode>::decode`:
given the wire format, the resolved type's OID and the raw bytes, produce
the bytes handed to `serde_json::from_slice`. -/
def json_decode_payload (fmt : PgValueFormat) (tyOid : Nat) (buf : List Nat) :
    DecodeOutcome (List Nat) :=
  if fmt = PgValueFormat.binary ∧ tyOid = jsonbOid then
    match buf with
    | [] => .panicked "index out of bounds"
    | b :: rest =>
      if b = 1 then .ok rest
      else .panicked "unsupported JSONB format version"
  else .ok buf

theorem read_i16_roundtrip_aux (v : Int) (h1 : -(2 ^ 15) ≤ v) (h2 : v < 2 ^ 15) :
    read_i16_be (i16_to_be_bytes v) = v := by
  unfold read_i16_be i16_to_be_bytes
  rw [List.take_of_length_le (by simp [natToBeBytes_length]), readBeU_natToBeBytes]
  have hnn : (0 : Int) ≤ v % 2 ^ 16 := Int.emod_nonneg v (by norm_num)
  have hlt : v % 2 ^ 16 < 2 ^ 16 := Int.emod_lt_of_pos v (by norm_num)
  have hcast : ((v % 2 ^ 16).toNat : Int) = v % 2 ^ 16 := Int.toNat_of_nonneg hnn
  have hsmall : (v % 2 ^ 16).toNat % 256 ^ 2 = (v % 2 ^ 16).toNat :=
    Nat.mod_eq_of_lt (by norm_num; omega)
  rw [hsmall]
  dsimp only
  split <;> omega

theorem read_i32_roundtrip_aux (v : Int) (h1 : -(2 ^ 31) ≤ v) (h2 : v < 2 ^ 31) :
    read_i32_be (i32_to_be_bytes v) = v := by
  unfold read_i32_be i32_to_be_bytes
  rw [List.take_of_length_le (by simp [natToBeBytes_length]), readBeU_natToBeBytes]
  have hnn : (0 : Int) ≤ v % 2 ^ 32 := Int.emod_nonneg v (by norm_num)
  have hlt : v % 2 ^ 32 < 2 ^ 32 := Int.emod_lt_of_pos v (by norm_num)
  have hcast : ((v % 2 ^ 32).toNat : Int) = v % 2 ^ 32 := Int.toNat_of_nonneg hnn
  have hsmall : (v % 2 ^ 32).toNat % 256 ^ 4 = (v % 2 ^ 32).toNat :=
    Nat.mod_eq_of_lt (by norm_num; omega)
  rw [hsmall]
  dsimp only
  split <;> omega

theorem read_i64_roundtrip_aux (v : Int) (h1 : -(2 ^ 63) ≤ v) (h2 : v < 2 ^ 63) :
    read_i64_be (i64_to_be_bytes v) = v := by
  unfold read_i64_be i64_to_be_bytes
  rw [List.take_of_length_le (by simp [natToBeBytes_length]), readBeU_natToBeBytes]
  have hnn : (0 : Int) ≤ v % 2 ^ 64 := Int.emod_nonneg v (by norm_num)
  have hlt : v % 2 ^ 64 < 2 ^ 64 := Int.emod_lt_of_pos v (by norm_num)
  have hcast : ((v % 2 ^ 64).toNat : Int) = v % 2 ^ 64 := Int.toNat_of_nonneg hnn
  have hsmall : (v % 2 ^ 64).toNat % 256 ^ 8 = (v % 2 ^ 64).toNat :=
    Nat.mod_eq_of_lt (by norm_num; omega)
  rw [hsmall]
  dsimp only
  split <;> omega

theorem read_f32_roundtrip_aux (bits : Nat) (h : bits < 2 ^ 32) :
    read_f32_be (f32_to_be_bytes bits) = bits := by
  unfold read_f32_be f32_to_be_bytes
  rw [List.take_of_length_le (by simp [natToBeBytes_length]), readBeU_natToBeBytes]
  exact Nat.mod_eq_of_lt (by norm_num; omega)

theorem read_f64_roundtrip_aux (bits : Nat) (h : bits < 2 ^ 64) :
    read_f64_be (f64_to_be_bytes bits) = bits := by
  unfold read_f64_be f64_to_be_bytes
  rw [List.take_of_length_le (by simp [natToBeBytes_length]), readBeU_natToBeBytes]
  exact Nat.mod_eq_of_lt (by norm_num; omega)

/-- C8: for the fixed-width scalar types i16, i32, i64, f32, f64 and bool,
decoding the binary-format big-endian encoding of a value reproduces it
bit-for-bit over the full two's-complement range (hence at the boundary
values i16 = 32767 / -32768) and over every IEEE bit pattern (hence NaN
and both zeroes of f64); bool encodes as the single byte 0 or 1. -/
theorem scalar_binary_roundtrip :
    (∀ v : Int, -(2 ^ 15) ≤ v → v < 2 ^ 15 → read_i16_be (i16_to_be_bytes v) = v)
    ∧ (∀ v : Int, -(2 ^ 31) ≤ v → v < 2 ^ 31 → read_i32_be (i32_to_be_bytes v) = v)
    ∧ (∀ v : Int, -(2 ^ 63) ≤ v → v < 2 ^ 63 → read_i64_be (i64_to_be_bytes v) = v)
    ∧ (∀ bits : Nat, bits < 2 ^ 32 → read_f32_be (f32_to_be_bytes bits) = bits)
    ∧ (∀ bits : Nat, bits < 2 ^ 64 → read_f64_be (f64_to_be_bytes bits) = bits)
    ∧ (∀ b : Bool, decode_bool_binary (encode_bool b) = some b)
    ∧ (∀ b : Bool, encode_bool b = [1] ∨ encode_bool b = [0]) :=
  ⟨read_i16_roundtrip_aux, read_i32_roundtrip_aux, read_i64_roundtrip_aux,
   read_f32_roundtrip_aux, read_f64_roundtrip_aux,
   fun b => by cases b <;> rfl,
   fun b => by cases b <;> simp [encode_bool]⟩

/-- Witness for C8 at the boundary values: i16 at 32767 and -32768, i64 at
its minimum, f64 at a quiet-NaN bit pattern (0x7FF8000000000000), negative
zero (2^63) and positive zero, and bool true. -/
theorem scalar_binary_roundtrip_witness :
    read_i16_be (i16_to_be_bytes 32767) = 32767
    ∧ read_i16_be (i16_to_be_bytes (-32768)) = -32768
    ∧ read_i64_be (i64_to_be_bytes (-(2 ^ 63))) = -(2 ^ 63)
    ∧ read_f64_be (f64_to_be_bytes 9221120237041090560) = 9221120237041090560
    ∧ read_f64_be (f64_to_be_bytes (2 ^ 63)) = 2 ^ 63
    ∧ read_f64_be (f64_to_be_bytes 0) = 0
    ∧ decode_bool_binary (encode_bool true) = some true :=
  ⟨scalar_binary_roundtrip.1 32767 (by norm_num) (by norm_num),
   scalar_binary_roundtrip.1 (-32768) (by norm_num) (by norm_num),
   scalar_binary_roundtrip.2.2.1 (-(2 ^ 63)) (by norm_num) (by norm_num),
   scalar_binary_roundtrip.2.2.2.2.1 9221120237041090560 (by norm_num),
   scalar_binary_roundtrip.2.2.2.2.1 (2 ^ 63) (by norm_num),
   scalar_binary_roundtrip.2.2.2.2.1 0 (by norm_num),
   scalar_binary_roundtrip.2.2.2.2.2.1 true⟩

/-- C10: in binary format with resolved type `jsonb`, the decoder requires
the first payload byte to equal 1, strips it before handing the rest to
the JSON parser, and panics via an assertion (rather than returning an
error) when the byte differs; for the bare `json` OID, or in text format,
the buffer is passed through unchanged with no version byte stripped. -/
theorem json_decode_payload_spec :
    (∀ rest : List Nat,
      json_decode_payload PgValueFormat.binary jsonbOid (1 :: rest) = .ok rest)
    ∧ (∀ (b : Nat) (rest : List Nat), b ≠ 1 →
      json_decode_payload PgValueFormat.binary jsonbOid (b :: rest) =
        .panicked "unsupported JSONB format version")
    ∧ (∀ buf : List Nat,
      json_decode_payload PgValueFormat.binary jsonOid buf = .ok buf)
    ∧ (∀ (tyOid : Nat) (buf : List Nat),
      json_decode_payload PgValueFormat.text tyOid buf = .ok buf) := by
  refine ⟨fun rest => rfl, fun b rest hb => ?_, fun buf => ?_, fun tyOid buf => ?_⟩
  · simp [json_decode_payload, hb]
  · simp [json_decode_payload, jsonOid, jsonbOid]
  · simp [json_decode_payload]

/-- Witness for C10: version byte 1 accepted and stripped, version byte 2
panics, bare `json` passes through. -/
theorem json_decode_payload_spec_witness :
    json_decode_payload PgValueFormat.binary jsonbOid [1, 123] = .ok [123]
    ∧ json_decode_payload PgValueFormat.binary jsonbOid [2, 123] =
        .panicked "unsupported JSONB format version"
    ∧ json_decode_payload PgValueFormat.binary jsonOid [123] = .ok [123] :=
  ⟨json_decode_payload_spec.1 [123],
   json_decode_payload_spec.2.1 2 [123] (by norm_num),
   json_decode_payload_spec.2.2.1 [123]⟩

/-- C1 counterexample: the claim states that catalog evidence wins
(`combined = nullable_from_catalog.or(nullable_from_plan)`), which at a
column with catalog evidence `some false` and plan evidence `some true`
would give `some false`; the code computes `patch.or(*nullable)` and
yields `some true`. -/
theorem get_nullable_catalog_precedence_cex :
    get_nullable_for_columns [some false] [some true] true ≠
      [optionOr (some false) (some true)] := by
  decide

theorem patchNullables_getD :
    ∀ (ns ps : List (Option Bool)) (i : Nat), i < ns.length →
      (patchNullables ns ps).getD i none = optionOr (ps.getD i none) (ns.getD i none)
  | [], _, _, h => absurd h (by simp)
  | _ :: _, [], _, _ => by simp [patchNullables, optionOr]
  | _ :: _, _ :: _, 0, _ => by simp [patchNullables]
  | _ :: ns, _ :: ps, i + 1, h => by
    simpa [patchNullables] using patchNullables_getD ns ps i (by simpa using h)

theorem patchNullables_length (ns ps : List (Option Bool)) :
    (patchNullables ns ps).length = ns.length := by
  induction ns generalizing ps with
  | nil => cases ps <;> rfl
  | cons n ns ih => cases ps <;> simp [patchNullables, ih]

/-- C1 (amended): when the server supports plan-explain, the combined
nullability vector has one entry per catalog entry and equals, per column,
`nullable_from_plan.or(nullable_from_catalog)` — plan evidence, where
present, overrides catalog evidence, and catalog evidence fills the
columns the plan left unknown (columns beyond the plan vector's length
keep their catalog value). -/
theorem get_nullable_combined (cats plans : List (Option Bool)) :
    (get_nullable_for_columns cats plans true).length = cats.length
    ∧ ∀ i : Nat, i < cats.length →
      (get_nullable_for_columns cats plans true).getD i none =
        optionOr (plans.getD i none) (cats.getD i none) := by
  refine ⟨?_, ?_⟩
  · simpa [get_nullable_for_columns] using patchNullables_length cats plans
  · intro i hi
    simpa [get_nullable_for_columns] using patchNullables_getD cats plans i hi

/-- Witness for the amended C1 at a concrete column: catalog `some false`,
plan `some true`, combined `some true`. -/
theorem get_nullable_combined_witness :
    (get_nullable_for_columns [some false] [some true] true).getD 0 none =
      optionOr (([some true] : List (Option Bool)).getD 0 none)
        (([some false] : List (Option Bool)).getD 0 none) :=
  (get_nullable_combined [some false] [some true]).2 0 (by norm_num)

/-! ## Record decoder, text format
(src/sqlx-core/src/postgres/types/record.rs, `PgRecordDecoder`)

`PgRecordDecoder::new` in text format strips the enclosing parentheses
(`buf = &buf[1..(buf.len() - 1)]`).  Each `try_decode` call first fails if
the remaining buffer is empty, then runs the quote/escape state machine to
accumulate one field, ending at an unquoted comma (which is consumed) or
at the end of the buffer; a completely empty unquoted accumulation is
passed on as NULL (`None`), anything else as the accumulated text. -/

/-- The per-character loop of `try_decode` (text arm): consumes characters
from the buffer, maintaining the accumulated element, the `quoted` flag,
the in-quotes and in-escape states and the previous character; returns the
accumulated element, the `quoted` flag and the unconsumed buffer. -/
def parseTextField : List Char → String → Bool → Bool → Bool → Char →
    String × Bool × List Char
  | [], element, quoted, _, _, _ => (element, quoted, [])
  | ch :: rest, element, quoted, inQuotes, inEscape, prev =>
    if inEscape then
      parseTextField rest (element.push ch) quoted inQuotes false ch
    else if ch = '"' then
      if inQuotes then
        parseTextField rest element quoted false false ch
      else
        parseTextField rest (if prev = '"' then element.push '"' else element)
          true true false ch
    else if ch = '\\' then
      parseTextField rest element quoted inQuotes true ch
    else if ch = ',' ∧ inQuotes = false then
      (element, quoted, rest)
    else
      parseTextField rest (element.push ch) quoted inQuotes false ch

/-- `PgRecordDecoder::new` in text format: remove the enclosing `(` .. `)`. -/
def pgRecordDecoderNewText (value : List Char) : List Char :=
  (value.drop 1).take (value.length - 2)

/-- One `try_decode` call in text format, at field index `ind`: produces
the field's textual value (`none` models SQL NULL) and the decoder's
remaining buffer, or the `Err` the Rust code returns when the buffer is
already empty. -/
def tryDecodeText (buf : List Char) (ind : Nat) :
    DecodeOutcome (Option String × List Char) :=
  if buf.isEmpty then
    .err ("no field `" ++ toString ind ++ "` found on record")
  else
    let r := parseTextField buf "" false false false '\x00'
    .ok ((if r.1 = "" ∧ r.2.1 = false then none else some r.1), r.2.2)

/-- C2 evaluated on the code: decoding the text composite `(1,"a,b",)`
yields `1`, then `a,b` (the quoted comma preserved), but the third
`try_decode` call finds an empty buffer (the second field's terminating
comma was consumed) and returns the error `no field 2 found on record`
instead of the NULL the claim requires; an empty unquoted field that is
not in trailing position does decode to NULL. -/
theorem record_text_trailing_null_code_bug :
    tryDecodeText (pgRecordDecoderNewText "(1,\"a,b\",)".toList) 0 =
      .ok (some "1", "\"a,b\",".toList)
    ∧ tryDecodeText "\"a,b\",".toList 1 = .ok (some "a,b", [])
    ∧ tryDecodeText ([] : List Char) 2 = .err "no field `2` found on record"
    ∧ tryDecodeText ",x".toList 0 = .ok (none, "x".toList) := by
  refine ⟨?_, ?_, ?_, ?_⟩ <;> rfl

/-! ## Plan-based nullability inference
(describe.rs, `visit_plan` / `nullables_from_explain`)

The EXPLAIN output is deserialized into `Plan` nodes carrying the optional
fields "Join Type", "Parent Relationship", "Output" and "Plans". -/

/-- One node of the JSON plan tree returned by
`EXPLAIN (VERBOSE, FORMAT JSON)`. -/
inductive Plan : Type where
  | mk (joinType parentRelation : Option String)
       (output : Option (List String)) (plans : Option (List Plan))

def Plan.join_type : Plan → Option String
  | .mk jt _ _ _ => jt

def Plan.parent_relation : Plan → Option String
  | .mk _ pr _ _ => pr

def Plan.output : Plan → Option (List String)
  | .mk _ _ o _ => o

def Plan.plans : Plan → Option (List Plan)
  | .mk _ _ _ ps => ps

/-- Rust `outputs.iter().position(|o| o == output)`: index of the first
occurrence. -/
def position (outputs : List String) (o : String) : Option Nat :=
  match outputs with
  | [] => none
  | x :: rest => if x = o then some 0 else (position rest o).map (· + 1)

/-- The marking loop of `visit_plan`: for each of the node's own outputs,
if it occurs among the statement's top-level outputs, set that position of
the nullability vector to `some true`. -/
def markOutputs (planOutputs outputs : List String) (ns : List (Option Bool)) :
    List (Option Bool) :=
  planOutputs.foldl
    (fun acc o =>
      match position outputs o with
      | some i => acc.set i (some true)
      | none => acc)
    ns

mutual

/-- `visit_plan`: mark the node's outputs when its join type (or, when
absent, its parent relationship) is `Full` or `Inner`; recurse into the
children only when the node's own join type is `Left` or `Right`. -/
def visitPlan : Plan → List String → List (Option Bool) → List (Option Bool)
  | .mk jt pr out ps, outputs, ns =>
    let ns1 :=
      match out with
      | some planOutputs =>
        if optionOr jt pr = some "Full" ∨ optionOr jt pr = some "Inner" then
          markOutputs planOutputs outputs ns
        else ns
      | none => ns
    match ps with
    | some children =>
      if jt = some "Left" ∨ jt = some "Right" then visitPlans children outputs ns1
      else ns1
    | none => ns1

/-- The `for plan in plans` loop of `visit_plan`. -/
def visitPlans : List Plan → List String → List (Option Bool) → List (Option Bool)
  | [], _, ns => ns
  | p :: rest, outputs, ns => visitPlans rest outputs (visitPlan p outputs ns)

end

/-- `nullables_from_explain` after the EXPLAIN round-trip: size the vector
to the root node's output list and walk the tree (an absent root output
list yields the empty vector). -/
def nullables_from_explain (plan : Plan) : List (Option Bool) :=
  match plan.output with
  | none => []
  | some outputs => visitPlan plan outputs (List.replicate outputs.length none)

theorem position_lt_length :
    ∀ (outputs : List String) (o : String) (i : Nat),
      position outputs o = some i → i < outputs.length
  | [], _, _, h => by simp [position] at h
  | x :: rest, o, i, h => by
    by_cases hx : x = o
    · simp [position, hx] at h
      simp only [List.length_cons]
      omega
    · simp [position, hx] at h
      obtain ⟨j, hj, rfl⟩ := h
      have := position_lt_length rest o j hj
      simp
      omega

theorem getD_set_opt :
    ∀ (ns : List (Option Bool)) (j i : Nat) (v : Option Bool), j < ns.length →
      (ns.set j v).getD i none = if i = j then v else ns.getD i none
  | [], _, _, _, h => absurd h (by simp)
  | n :: ns, 0, 0, v, _ => rfl
  | n :: ns, 0, i + 1, v, _ => by simp [List.set]
  | n :: ns, j + 1, 0, v, _ => by simp [List.set]
  | n :: ns, j + 1, i + 1, v, h => by
    simpa [List.set] using getD_set_opt ns j i v (by simpa using h)

theorem markOutputs_getD (outputs : List String) :
    ∀ (pouts : List String) (ns : List (Option Bool)) (i : Nat),
      outputs.length ≤ ns.length →
      (markOutputs pouts outputs ns).getD i none =
        if i ∈ pouts.filterMap (position outputs) then some true
        else ns.getD i none
  | [], ns, i, _ => by simp [markOutputs]
  | o :: pouts, ns, i, hlen => by
    match hpos : position outputs o with
    | none =>
      have ih := markOutputs_getD outputs pouts ns i hlen
      simpa [markOutputs, List.foldl_cons, hpos] using ih
    | some j =>
      have hj : j < ns.length := lt_of_lt_of_le (position_lt_length outputs o j hpos) hlen
      have ih := markOutputs_getD outputs pouts (ns.set j (some true)) i
        (by simpa using hlen)
      rw [show markOutputs (o :: pouts) outputs ns =
            markOutputs pouts outputs (ns.set j (some true)) by
          simp [markOutputs, List.foldl_cons, hpos]]
      rw [ih, getD_set_opt ns j i (some true) hj]
      simp only [List.filterMap_cons, hpos, List.mem_cons]
      by_cases h1 : i ∈ pouts.filterMap (position outputs) <;>
        by_cases h2 : i = j <;> simp [h1, h2]

/-- C4: in the plan-tree walk — (1) a root with Join Type `Left` whose
child has Join Type `Inner` and outputs `email` makes the nullability
entry for `email` `some true`; (2) a tree whose root carries neither a
Join Type nor a Parent Relationship (in particular a tree with no join
nodes) leaves the vector unchanged; (3) children are visited only when
the node's own Join Type is `Left` or `Right` (otherwise they are
ignored); (4) a node's outputs are marked exactly when its join type —
or, when absent, its parent relationship — is `Full` or `Inner`; (5) the
marking sets exactly the positions of the statement outputs matched by
the node's outputs to `some true`, leaving every other entry unchanged. -/
theorem visit_plan_spec :
    (nullables_from_explain
        (.mk (some "Left") none (some ["email"])
          (some [.mk (some "Inner") none (some ["email"]) none])) = [some true])
    ∧ (∀ (p : Plan) (outputs : List String) (ns : List (Option Bool)),
        p.join_type = none → p.parent_relation = none → visitPlan p outputs ns = ns)
    ∧ (∀ (jt pr : Option String) (out : Option (List String))
        (ps : Option (List Plan)) (outputs : List String) (ns : List (Option Bool)),
        ¬(jt = some "Left" ∨ jt = some "Right") →
        visitPlan (.mk jt pr out ps) outputs ns =
          visitPlan (.mk jt pr out none) outputs ns)
    ∧ (∀ (jt pr : Option String) (pouts outputs : List String)
        (ns : List (Option Bool)),
        visitPlan (.mk jt pr (some pouts) none) outputs ns =
          if optionOr jt pr = some "Full" ∨ optionOr jt pr = some "Inner" then
            markOutputs pouts outputs ns
          else ns)
    ∧ (∀ (pouts outputs : List String) (ns : List (Option Bool)) (i : Nat),
        outputs.length ≤ ns.length →
        (markOutputs pouts outputs ns).getD i none =
          if i ∈ pouts.filterMap (position outputs) then some true
          else ns.getD i none) := by
  refine ⟨rfl, ?_, ?_, ?_, fun pouts outputs ns i h => markOutputs_getD outputs pouts ns i h⟩
  · rintro ⟨jt, pr, out, ps⟩ outputs ns h1 h2
    simp only [Plan.join_type] at h1
    simp only [Plan.parent_relation] at h2
    subst h1; subst h2
    cases out <;> cases ps <;> simp [visitPlan, optionOr]
  · intro jt pr out ps outputs ns h
    cases out <;> cases ps <;> simp [visitPlan, h]
  · intro jt pr pouts outputs ns
    simp [visitPlan]

/-- Witness for C4 at concrete inputs: a root with neither join field
leaves the vector unchanged; an `Inner` node's children are ignored; the
marking of `["email"]` against outputs `["email"]`. -/
theorem visit_plan_spec_witness :
    visitPlan (.mk none none (some ["email"]) (some [])) ["email"] [none] = [none]
    ∧ visitPlan (.mk (some "Inner") none (some ["email"]) (some [])) ["email"] [none] =
        visitPlan (.mk (some "Inner") none (some ["email"]) none) ["email"] [none]
    ∧ (markOutputs ["email"] ["email"] [none]).getD 0 none =
        (if 0 ∈ (["email"] : List String).filterMap (position ["email"]) then some true
         else ([none] : List (Option Bool)).getD 0 none) :=
  ⟨visit_plan_spec.2.1 (.mk none none (some ["email"]) (some [])) ["email"] [none] rfl rfl,
   visit_plan_spec.2.2.1 (some "Inner") none (some ["email"]) (some []) ["email"] [none]
     (by decide),
   visit_plan_spec.2.2.2.2 ["email"] ["email"] [none] 0 (by decide)⟩

/-! ## Local type catalog

The catalog module itself (`crate::postgres::catalog`) is not part of the
excerpt; only its callers in describe.rs and record.rs are.  Its data
shapes and operations are therefore modelled from the spec (§3 Data
Model, §4.1 Local Type Catalog), keyed directly by type reference. -/

/-- `PgTypeRef`: a reference to a type before resolution — a numeric OID
or a textual name. -/
inductive PgTypeRef : Type where
  | oid (o : Nat)
  | name (n : String)
deriving DecidableEq, Repr

/-- `PgTypeKind` with OID-valued dependent references
(`PgType<PgTypeOid>`, as produced by `fetch_type` in describe.rs). -/
inductive PgTypeKind : Type where
  | simple
  | pseudo
  | array (elem : Nat)
  | domain (base : Nat)
  | range (elem : Nat)
  | enum (labels : List String)
  | composite (fields : List (String × Nat))
deriving DecidableEq, Repr

/-- A resolved type descriptor: OID, name and kind. -/
structure PgType where
  oid : Nat
  name : String
  kind : PgTypeKind
deriving DecidableEq, Repr

/-- Modelled from the spec: a catalog entry is Unfetched (declared, not
yet queried), Fetched (holds a descriptor) or Missing (a fetch attempt
definitively found no row). -/
inductive PgEntryState : Type where
  | unfetched
  | fetched (ty : PgType)
  | missing
deriving DecidableEq, Repr

/-- `GetPgTypeError` as matched in `maybe_fetch_type_info_by_oid`. -/
inductive GetPgTypeError : Type where
  | missing
  | undeclared
  | unfetched
deriving DecidableEq, Repr

/-- Modelled from the spec: the local type catalog as an association list
from type reference to entry state, ordered by insertion (§3: "mapping
from OID (primary) with an auxiliary name index"; the name index is
collapsed into direct keying by reference). -/
abbrev LocalPgCatalog : Type := List (PgTypeRef × PgEntryState)

/-- First entry for a reference, if any. -/
def lookupEntry (cat : LocalPgCatalog) (r : PgTypeRef) : Option PgEntryState :=
  match cat with
  | [] => none
  | (r', st) :: rest => if r' = r then some st else lookupEntry rest r

/-- Replace the entry for `r` (or append it when absent). -/
def setEntry (cat : LocalPgCatalog) (r : PgTypeRef) (st : PgEntryState) :
    LocalPgCatalog :=
  match cat with
  | [] => [(r, st)]
  | (r', st') :: rest =>
    if r' = r then (r, st) :: rest else (r', st') :: setEntry rest r st

/-- Modelled from the spec: `resolve(ref) -> Fetched(descriptor) |
Missing(error) | Unfetched(error)` (§4.1); an absent entry is
`Undeclared`. -/
def resolve_type_info (cat : LocalPgCatalog) (r : PgTypeRef) :
    Except GetPgTypeError PgType :=
  match lookupEntry cat r with
  | none => .error .undeclared
  | some .unfetched => .error .unfetched
  | some .missing => .error .missing
  | some (.fetched t) => .ok t

/-- Modelled from the spec: `unfetched() -> ordered sequence of TypeRef`
(§4.1). -/
def get_unfetched (cat : LocalPgCatalog) : List PgTypeRef :=
  (cat.filter fun e => decide (e.2 = PgEntryState.unfetched)).map Prod.fst

/-- The dependent type references of a descriptor (composite field types,
array element, domain base, range subtype). -/
def typeDeps (k : PgTypeKind) : List Nat :=
  match k with
  | .array e => [e]
  | .domain b => [b]
  | .range e => [e]
  | .composite fs => fs.map Prod.snd
  | _ => []

/-- Modelled from the spec: `insert_type` stores the descriptor as
Fetched under its OID and declares each dependent reference as Unfetched
when not already present — "Insertion of a descriptor whose dependent
types … are not yet fetched still succeeds" (§4.1) and the dependent
references are the "newly-discovered Unfetched references (composite
fields / array elements discovered during this pass)" (§4.2 step 5). -/
def insert_type (cat : LocalPgCatalog) (ty : PgType) : LocalPgCatalog :=
  (typeDeps ty.kind).foldl
    (fun acc d =>
      match lookupEntry acc (.oid d) with
      | some _ => acc
      | none => acc ++ [(.oid d, .unfetched)])
    (setEntry cat (.oid ty.oid) (.fetched ty))

/-- Modelled from the spec: `flag_type_as_missing` records a definitive
fetch failure (§4.1). -/
def flag_type_as_missing (cat : LocalPgCatalog) (r : PgTypeRef) : LocalPgCatalog :=
  setEntry cat r .missing

/-! ## Record decoder, binary format (record.rs, `PgRecordDecoder`) -/

/-- OID of the built-in generic `RECORD` type
(`PgBuiltinType::Record.oid()`). -/
def recordOid : Nat := 2249

/-- The kind of the decoder's own resolved type, as matched by
`try_decode`: the composite field list carries fully resolved field types
(`composite.fields[ind].1.get()`; `LazyPgType` lives in the type_info2
module outside the excerpt and is modelled from the spec as already
resolved). -/
inductive DecTypeKind : Type where
  | simple
  | composite (fields : List (String × PgType))
  | otherKind
deriving DecidableEq, Repr

/-- The record decoder's own type: OID plus kind. -/
structure DecTypeInfo where
  oid : Nat
  kind : DecTypeKind
deriving DecidableEq, Repr

/-- `PgRecordDecoder` state in binary format. -/
structure PgRecordBinaryDecoder where
  buf : List Nat
  catalog : LocalPgCatalog
  typ : DecTypeInfo
  ind : Nat

/-- `PgRecordDecoder::new` in binary format: `let _len = buf.get_u32();`
— the 4-byte field-count header is consumed and its value discarded. -/
def pgRecordDecoderNewBinary (value : List Nat) (cat : LocalPgCatalog)
    (typ : DecTypeInfo) : PgRecordBinaryDecoder :=
  { buf := value.drop 4, catalog := cat, typ := typ, ind := 0 }

/-- One `try_decode` call in binary format, up to the resolution of the
element's type: fails on an empty buffer, reads the 4-byte element type
OID, resolves the element type from the composite field list (validating
the OID) or from the catalog (generic `RECORD`), and returns it together
with the advanced decoder; the element's own bytes are then consumed from
the remaining buffer by `PgValueRef::get`. -/
def tryDecodeBinaryStep (d : PgRecordBinaryDecoder) :
    DecodeOutcome (PgType × PgRecordBinaryDecoder) :=
  if d.buf.isEmpty then
    .err ("no field `" ++ toString d.ind ++ "` found on record")
  else if d.buf.length < 4 then .panicked "advance out of bounds"
  else
    let elemOid := readBeU (d.buf.take 4)
    let rest := d.buf.drop 4
    match d.typ.kind with
    | .simple =>
      if d.typ.oid = recordOid then
        match resolve_type_info d.catalog (.oid elemOid) with
        | .ok ty => .ok (ty, { d with buf := rest, ind := d.ind + 1 })
        | .error _ =>
          .err ("unresolved record element type at index " ++ toString d.ind)
      else .err "unexpected non-composite type being decoded as a composite type"
    | .composite fields =>
      match fields[d.ind]? with
      | none => .panicked "index out of bounds"
      | some (_, fty) =>
        if fty.oid = elemOid then .ok (fty, { d with buf := rest, ind := d.ind + 1 })
        else .err "unexpected mismatch of composite type information"
    | .otherKind =>
      .err "unexpected non-composite type being decoded as a composite type"

/-! ## Catalog resolver
(describe.rs, `maybe_fetch_type_info_by_oid` / `fetch_declared`)

`fetch_type` issues the catalog queries for one reference (plus the
nested enum-label / composite-attribute / range-subtype queries) and
builds a descriptor; the server's catalog content is abstracted as an
oracle from reference to result, and the number of oracle calls counts
the catalog queries issued (at least one real query per call). -/

/-- The error type as used on the resolver paths: `Error::RowNotFound`
(an internal catalog query returned nothing), `Error::TypeNotFound`, or
any other transport/protocol error. -/
inductive PgError : Type where
  | typeNotFound (r : PgTypeRef)
  | rowNotFound
  | other (msg : String)
deriving DecidableEq, Repr

/-- The server-side catalog as an oracle: what `fetch_type` returns for a
reference. -/
abbrev PgServer : Type := PgTypeRef → Except PgError PgType

/-- Result of a fetch pass: the `Result` value, the catalog afterwards,
and the number of catalog queries issued. -/
structure FetchOutcome where
  result : Except PgError Unit
  cat : LocalPgCatalog
  queries : Nat
deriving Repr

/-- The `for ty_ref in unfetched.drain(..)` loop of `fetch_declared`:
each successful fetch is inserted (`insert_type`); `Err(RowNotFound)`
flags the reference as Missing and returns `Err(TypeNotFound)`
immediately; any other error returns immediately without flagging. -/
def drainWorklist (server : PgServer) :
    List PgTypeRef → LocalPgCatalog → Nat →
    Except (PgError × LocalPgCatalog × Nat) (LocalPgCatalog × Nat)
  | [], cat, q => .ok (cat, q)
  | r :: rest, cat, q =>
    match server r with
    | .ok ty => drainWorklist server rest (insert_type cat ty) (q + 1)
    | .error .rowNotFound =>
      .error (.typeNotFound r, flag_type_as_missing cat r, q + 1)
    | .error e => .error (e, cat, q + 1)

/-- `fetch_declared`: drain the worklist, then re-collect the newly
discovered Unfetched references and repeat until none remain.  `fuel`
bounds the number of `while` iterations (`none` = fuel exhausted). -/
def fetch_declared (server : PgServer) :
    Nat → List PgTypeRef → LocalPgCatalog → Nat → Option FetchOutcome
  | 0, _, _, _ => none
  | fuel + 1, wl, cat, q =>
    if wl.isEmpty then some ⟨.ok (), cat, q⟩
    else
      match drainWorklist server wl cat q with
      | .error (e, cat', q') => some ⟨.error e, cat', q'⟩
      | .ok (cat', q') => fetch_declared server fuel (get_unfetched cat') cat' q'

/-- The mutable connection state touched by the resolver: the local
catalog and the `fetching_types` re-entrancy guard. -/
structure PgConnectionState where
  local_catalog : LocalPgCatalog
  fetching_types : Bool
deriving Repr

/-- Result of `maybe_fetch_type_info_by_oid`: the returned `Result`, the
connection state afterwards, and the catalog queries issued. -/
structure ResolveOutcome where
  result : Except PgError PgType
  conn : PgConnectionState
  queries : Nat
deriving Repr

/-- The tail of `maybe_fetch_type_info_by_oid` after the fetch section:
`cached.unwrap_or_else(|| resolve_type_info(..))`, then `TypeNotFound`
for any unresolved outcome. -/
def finishResolve (cat : LocalPgCatalog) (ft : Bool) (oid : Nat)
    (cached : Option (Except GetPgTypeError PgType)) (q : Nat) : ResolveOutcome :=
  match cached.getD (resolve_type_info cat (.oid oid)) with
  | .ok ty => ⟨.ok ty, ⟨cat, ft⟩, q⟩
  | .error _ => ⟨.error (.typeNotFound (.oid oid)), ⟨cat, ft⟩, q⟩

/-- The guarded fetch section of `maybe_fetch_type_info_by_oid`: when the
re-entrancy guard is clear, set it, run `fetch_declared`, clear it, and
propagate its error if any; when the guard is already set, skip fetching
entirely. -/
def maybeFetchRest (server : PgServer) (fuel : Nat) (conn : PgConnectionState)
    (oid : Nat) (cached : Option (Except GetPgTypeError PgType))
    (wl : List PgTypeRef) : Option ResolveOutcome :=
  if conn.fetching_types then
    some (finishResolve conn.local_catalog conn.fetching_types oid cached 0)
  else
    match fetch_declared server fuel wl conn.local_catalog 0 with
    | none => none
    | some out =>
      match out.result with
      | .error e => some ⟨.error e, ⟨out.cat, false⟩, out.queries⟩
      | .ok _ => some (finishResolve out.cat false oid cached out.queries)

/-- `maybe_fetch_type_info_by_oid`: read the catalog once (the Unfetched
set and the cached resolution of the requested OID); return immediately
on the two no-pending fast paths; otherwise build the worklist and run
the guarded fetch section, then re-resolve. -/
def maybe_fetch_type_info_by_oid (server : PgServer) (fuel : Nat)
    (conn : PgConnectionState) (oid : Nat) : Option ResolveOutcome :=
  let unfetched := get_unfetched conn.local_catalog
  match resolve_type_info conn.local_catalog (.oid oid) with
  | .ok ty =>
    if unfetched.isEmpty then some ⟨.ok ty, conn, 0⟩
    else maybeFetchRest server fuel conn oid (some (.ok ty)) unfetched
  | .error .missing =>
    if unfetched.isEmpty then some ⟨.error (.typeNotFound (.oid oid)), conn, 0⟩
    else maybeFetchRest server fuel conn oid (some (.error .missing)) unfetched
  | .error .undeclared =>
    maybeFetchRest server fuel conn oid none (unfetched ++ [.oid oid])
  | .error .unfetched =>
    maybeFetchRest server fuel conn oid none (unfetched ++ [.oid oid])

/-! ## Theorems about the record binary decoder (C9) -/

/-- C9: in binary format — (1) the 4-byte field-count header is consumed
at decoder construction but its value never influences the decoder
(any two headers over the same remainder give equal decoders); (2) each
`try_decode` reads a 4-byte element type OID before the field bytes, and
when the record's declared type is a composite, a wire OID differing from
the declared field type's OID at the current position makes the decode
fail with a returned error (not a panic), while a matching OID resolves
to the declared field type and advances past the OID. -/
theorem record_binary_decode_spec :
    (∀ (c1 c2 rest : List Nat) (cat : LocalPgCatalog) (typ : DecTypeInfo),
      c1.length = 4 → c2.length = 4 →
      pgRecordDecoderNewBinary (c1 ++ rest) cat typ =
        pgRecordDecoderNewBinary (c2 ++ rest) cat typ)
    ∧ (∀ (d : PgRecordBinaryDecoder) (fields : List (String × PgType))
        (nm : String) (fty : PgType),
        d.typ.kind = .composite fields →
        fields[d.ind]? = some (nm, fty) →
        d.buf ≠ [] → 4 ≤ d.buf.length →
        (fty.oid ≠ readBeU (d.buf.take 4) →
          tryDecodeBinaryStep d =
            .err "unexpected mismatch of composite type information")
        ∧ (fty.oid = readBeU (d.buf.take 4) →
          tryDecodeBinaryStep d =
            .ok (fty, { d with buf := d.buf.drop 4, ind := d.ind + 1 }))) := by
  constructor
  · intro c1 c2 rest cat typ h1 h2
    have e1 : (c1 ++ rest).drop 4 = rest := by rw [← h1]; exact List.drop_left c1 rest
    have e2 : (c2 ++ rest).drop 4 = rest := by rw [← h2]; exact List.drop_left c2 rest
    simp [pgRecordDecoderNewBinary, e1, e2]
  · intro d fields nm fty hkind hget hne hlen
    have hemp : d.buf.isEmpty = false := by
      cases hb : d.buf with
      | nil => exact absurd hb hne
      | cons x xs => simp [hb]
    constructor
    · intro hoid
      simp [tryDecodeBinaryStep, hemp, Nat.not_lt.mpr hlen, hkind, hget,
        fun h => hoid h]
    · intro hoid
      simp [tryDecodeBinaryStep, hemp, Nat.not_lt.mpr hlen, hkind, hget, hoid]

/-- Witness for C9: a two-header comparison, a matching field OID and a
mismatching field OID on a concrete composite decoder. -/
theorem record_binary_decode_spec_witness :
    pgRecordDecoderNewBinary ([0, 0, 0, 1] ++ [9]) [] ⟨16, .otherKind⟩ =
      pgRecordDecoderNewBinary ([7, 7, 7, 7] ++ [9]) [] ⟨16, .otherKind⟩
    ∧ tryDecodeBinaryStep
        ⟨[0, 0, 0, 24, 5], [], ⟨16, .composite [("a", ⟨23, "int4", .simple⟩)]⟩, 0⟩ =
        .err "unexpected mismatch of composite type information"
    ∧ tryDecodeBinaryStep
        ⟨[0, 0, 0, 23, 5], [], ⟨16, .composite [("a", ⟨23, "int4", .simple⟩)]⟩, 0⟩ =
        .ok (⟨23, "int4", .simple⟩,
          ⟨[5], [], ⟨16, .composite [("a", ⟨23, "int4", .simple⟩)]⟩, 1⟩) :=
  ⟨record_binary_decode_spec.1 [0, 0, 0, 1] [7, 7, 7, 7] [9] [] ⟨16, .otherKind⟩ rfl rfl,
   (record_binary_decode_spec.2
      ⟨[0, 0, 0, 24, 5], [], ⟨16, .composite [("a", ⟨23, "int4", .simple⟩)]⟩, 0⟩
      [("a", ⟨23, "int4", .simple⟩)] "a" ⟨23, "int4", .simple⟩
      rfl rfl (by decide) (by decide)).1 (by decide),
   (record_binary_decode_spec.2
      ⟨[0, 0, 0, 23, 5], [], ⟨16, .composite [("a", ⟨23, "int4", .simple⟩)]⟩, 0⟩
      [("a", ⟨23, "int4", .simple⟩)] "a" ⟨23, "int4", .simple⟩
      rfl rfl (by decide) (by decide)).2 (by decide)⟩

/-! ## Basic catalog lemmas -/

theorem lookup_setEntry (cat : LocalPgCatalog) (k : PgTypeRef) (v : PgEntryState)
    (r : PgTypeRef) :
    lookupEntry (setEntry cat k v) r = if k = r then some v else lookupEntry cat r := by
  induction cat with
  | nil => simp [setEntry, lookupEntry]
  | cons e rest ih =>
    obtain ⟨r0, st0⟩ := e
    by_cases h0 : r0 = k
    · subst h0
      by_cases hr : r0 = r <;> simp [setEntry, lookupEntry, hr]
    · by_cases hr : r0 = r
      · subst hr
        have : ¬k = r0 := fun h => h0 h.symm
        simp [setEntry, lookupEntry, h0, this]
      · simp [setEntry, lookupEntry, h0, hr, ih]

theorem lookup_append_some (cat tail : LocalPgCatalog) (r : PgTypeRef)
    (st : PgEntryState) (h : lookupEntry cat r = some st) :
    lookupEntry (cat ++ tail) r = some st := by
  induction cat with
  | nil => simp [lookupEntry] at h
  | cons e rest ih =>
    obtain ⟨r0, st0⟩ := e
    by_cases hr : r0 = r
    · simp [lookupEntry, hr] at h ⊢
      exact h
    · simp [lookupEntry, hr] at h ⊢
      exact ih h

theorem lookup_depfold_some (ds : List Nat) :
    ∀ (acc : LocalPgCatalog) (r : PgTypeRef) (st : PgEntryState),
      lookupEntry acc r = some st →
      lookupEntry
        (ds.foldl
          (fun acc d =>
            match lookupEntry acc (.oid d) with
            | some _ => acc
            | none => acc ++ [(.oid d, .unfetched)])
          acc) r = some st := by
  induction ds with
  | nil => intro acc r st h; simpa using h
  | cons d ds ih =>
    intro acc r st h
    simp only [List.foldl_cons]
    cases hd : lookupEntry acc (.oid d) with
    | some st0 => simp only [hd]; exact ih acc r st h
    | none =>
      simp only [hd]
      exact ih _ r st (lookup_append_some acc _ r st h)

theorem lookup_insert_type_cases (cat : LocalPgCatalog) (ty : PgType)
    (r : PgTypeRef) (st : PgEntryState) (h : lookupEntry cat r = some st) :
    lookupEntry (insert_type cat ty) r = some st ∨
    lookupEntry (insert_type cat ty) r = some (.fetched ty) := by
  unfold insert_type
  by_cases hr : PgTypeRef.oid ty.oid = r
  · right
    apply lookup_depfold_some
    rw [lookup_setEntry]
    simp [hr]
  · left
    apply lookup_depfold_some
    rw [lookup_setEntry]
    simp [hr, h]

theorem lookup_flag_missing (cat : LocalPgCatalog) (k r : PgTypeRef) :
    lookupEntry (flag_type_as_missing cat k) r =
      if k = r then some .missing else lookupEntry cat r :=
  lookup_setEntry cat k .missing r

theorem get_unfetched_nil_lookup (cat : LocalPgCatalog)
    (h : get_unfetched cat = []) (r : PgTypeRef) :
    lookupEntry cat r ≠ some .unfetched := by
  induction cat with
  | nil => simp [lookupEntry]
  | cons e rest ih =>
    obtain ⟨r0, st0⟩ := e
    simp only [get_unfetched, List.filter_cons] at h
    by_cases hst : st0 = PgEntryState.unfetched
    · simp [hst] at h
    · rw [decide_eq_false hst] at h
      simp only [Bool.false_eq_true, if_false] at h
      intro hcontra
      by_cases hr : r0 = r
      · simp [lookupEntry, hr] at hcontra
        exact hst (hcontra ▸ rfl)
      · simp [lookupEntry, hr] at hcontra
        exact ih h hcontra

/-! ## Re-entrancy guard (C6) and fast path (C7) -/

theorem finishResolve_conn (cat : LocalPgCatalog) (ft : Bool) (oid : Nat)
    (cached : Option (Except GetPgTypeError PgType)) (q : Nat) :
    (finishResolve cat ft oid cached q).conn = ⟨cat, ft⟩ := by
  unfold finishResolve
  split <;> rfl

theorem maybeFetchRest_clears_guard (server : PgServer) (fuel : Nat)
    (conn : PgConnectionState) (oid : Nat)
    (cached : Option (Except GetPgTypeError PgType)) (wl : List PgTypeRef)
    (out : ResolveOutcome) (hft : conn.fetching_types = false)
    (h : maybeFetchRest server fuel conn oid cached wl = some out) :
    out.conn.fetching_types = false := by
  unfold maybeFetchRest at h
  rw [hft] at h
  simp only [Bool.false_eq_true, if_false] at h
  cases hfd : fetch_declared server fuel wl conn.local_catalog 0 with
  | none => rw [hfd] at h; simp at h
  | some fout =>
    rw [hfd] at h
    obtain ⟨res, fcat, fq⟩ := fout
    cases res with
    | error e =>
      simp only [Option.some_inj] at h
      rw [← h]
    | ok u =>
      simp only [Option.some_inj] at h
      rw [← h, finishResolve_conn]

/-- C6: every call to `maybe_fetch_type_info_by_oid` that observes
`fetching_types == false` leaves `fetching_types == false` on return, on
every exit path — the fast paths, the successful fetch path and the path
where `fetch_declared` returns an error. -/
theorem maybe_fetch_clears_guard (server : PgServer) (fuel : Nat)
    (conn : PgConnectionState) (oid : Nat) (out : ResolveOutcome)
    (hft : conn.fetching_types = false)
    (h : maybe_fetch_type_info_by_oid server fuel conn oid = some out) :
    out.conn.fetching_types = false := by
  unfold maybe_fetch_type_info_by_oid at h
  cases hres : resolve_type_info conn.local_catalog (.oid oid) with
  | ok ty =>
    rw [hres] at h
    by_cases hu : (get_unfetched conn.local_catalog).isEmpty
    · simp only [hu, if_true, Option.some_inj] at h
      rw [← h]; exact hft
    · simp only [hu, Bool.false_eq_true, if_false] at h
      exact maybeFetchRest_clears_guard server fuel conn oid _ _ out hft h
  | error e =>
    rw [hres] at h
    cases e with
    | missing =>
      by_cases hu : (get_unfetched conn.local_catalog).isEmpty
      · simp only [hu, if_true, Option.some_inj] at h
        rw [← h]; exact hft
      · simp only [hu, Bool.false_eq_true, if_false] at h
        exact maybeFetchRest_clears_guard server fuel conn oid _ _ out hft h
    | undeclared => exact maybeFetchRest_clears_guard server fuel conn oid _ _ out hft h
    | unfetched => exact maybeFetchRest_clears_guard server fuel conn oid _ _ out hft h

/-- Witness for C6 on the error path: the server answers row-not-found,
`fetch_declared` fails, and the guard is still clear afterwards. -/
theorem maybe_fetch_clears_guard_witness :
    (⟨.error (.typeNotFound (.oid 1)), ⟨[(.oid 1, .missing)], false⟩, 1⟩ :
      ResolveOutcome).conn.fetching_types = false :=
  maybe_fetch_clears_guard (fun _ => .error .rowNotFound) 1 ⟨[], false⟩ 1
    ⟨.error (.typeNotFound (.oid 1)), ⟨[(.oid 1, .missing)], false⟩, 1⟩ rfl rfl

/-- C7: when the requested OID is already Fetched and the catalog holds
no Unfetched entries, `maybe_fetch_type_info_by_oid` returns the cached
descriptor with zero catalog queries and an unchanged connection state. -/
theorem maybe_fetch_fast_path (server : PgServer) (fuel : Nat)
    (cat : LocalPgCatalog) (ft : Bool) (oid : Nat) (t : PgType)
    (hf : lookupEntry cat (.oid oid) = some (.fetched t))
    (hu : get_unfetched cat = []) :
    maybe_fetch_type_info_by_oid server fuel ⟨cat, ft⟩ oid =
      some ⟨.ok t, ⟨cat, ft⟩, 0⟩ := by
  unfold maybe_fetch_type_info_by_oid
  simp [resolve_type_info, hf, hu]

/-- Witness for C7: a catalog caching OID 7 with nothing pending. -/
theorem maybe_fetch_fast_path_witness :
    maybe_fetch_type_info_by_oid (fun _ => .error .rowNotFound) 0
        ⟨[(.oid 7, .fetched ⟨7, "t7", .simple⟩)], false⟩ 7 =
      some ⟨.ok ⟨7, "t7", .simple⟩,
        ⟨[(.oid 7, .fetched ⟨7, "t7", .simple⟩)], false⟩, 0⟩ :=
  maybe_fetch_fast_path (fun _ => .error .rowNotFound) 0
    [(.oid 7, .fetched ⟨7, "t7", .simple⟩)] false 7 ⟨7, "t7", .simple⟩ rfl rfl

/-! ## Sticky Missing entries (C5) -/

/-- The catalog entry for `r` is settled: Missing or Fetched. -/
def SettledAt (cat : LocalPgCatalog) (r : PgTypeRef) : Prop :=
  lookupEntry cat r = some .missing ∨ ∃ t, lookupEntry cat r = some (.fetched t)

theorem settled_insert (cat : LocalPgCatalog) (ty : PgType) (r : PgTypeRef)
    (h : SettledAt cat r) : SettledAt (insert_type cat ty) r := by
  rcases h with h | ⟨t, h⟩
  · rcases lookup_insert_type_cases cat ty r _ h with h' | h'
    · exact Or.inl h'
    · exact Or.inr ⟨ty, h'⟩
  · rcases lookup_insert_type_cases cat ty r _ h with h' | h'
    · exact Or.inr ⟨t, h'⟩
    · exact Or.inr ⟨ty, h'⟩

theorem settled_flag (cat : LocalPgCatalog) (k r : PgTypeRef)
    (h : SettledAt cat r) : SettledAt (flag_type_as_missing cat k) r := by
  unfold SettledAt at h ⊢
  rw [lookup_flag_missing]
  by_cases hk : k = r
  · simp [hk]
  · simpa [hk] using h

theorem drainWorklist_settled (server : PgServer) :
    ∀ (wl : List PgTypeRef) (cat : LocalPgCatalog) (q : Nat) (r : PgTypeRef),
      SettledAt cat r →
      (∀ cat' q', drainWorklist server wl cat q = .ok (cat', q') → SettledAt cat' r)
      ∧ (∀ e cat' q', drainWorklist server wl cat q = .error (e, cat', q') →
          SettledAt cat' r) := by
  intro wl
  induction wl with
  | nil =>
    intro cat q r h
    constructor
    · intro cat' q' hd
      simp only [drainWorklist, Except.ok.injEq, Prod.mk.injEq] at hd
      exact hd.1 ▸ h
    · intro e cat' q' hd
      simp [drainWorklist] at hd
  | cons r0 rest ih =>
    intro cat q r h
    constructor
    · intro cat' q' hd
      simp only [drainWorklist] at hd
      cases hs : server r0 with
      | ok ty =>
        rw [hs] at hd
        exact (ih (insert_type cat ty) (q + 1) r (settled_insert cat ty r h)).1 cat' q' hd
      | error e =>
        cases e <;> rw [hs] at hd <;> simp at hd
    · intro e cat' q' hd
      simp only [drainWorklist] at hd
      cases hs : server r0 with
      | ok ty =>
        rw [hs] at hd
        exact (ih (insert_type cat ty) (q + 1) r (settled_insert cat ty r h)).2 e cat' q' hd
      | error e0 =>
        cases e0 with
        | rowNotFound =>
          rw [hs] at hd
          simp only [Except.error.injEq, Prod.mk.injEq] at hd
          exact hd.2.1 ▸ settled_flag cat r0 r h
        | typeNotFound r1 =>
          rw [hs] at hd
          simp only [Except.error.injEq, Prod.mk.injEq] at hd
          exact hd.2.1 ▸ h
        | other m =>
          rw [hs] at hd
          simp only [Except.error.injEq, Prod.mk.injEq] at hd
          exact hd.2.1 ▸ h

theorem fetch_declared_settled (server : PgServer) :
    ∀ (fuel : Nat) (wl : List PgTypeRef) (cat : LocalPgCatalog) (q : Nat)
      (out : FetchOutcome) (r : PgTypeRef),
      fetch_declared server fuel wl cat q = some out →
      SettledAt cat r → SettledAt out.cat r := by
  intro fuel
  induction fuel with
  | zero => intro wl cat q out r h; simp [fetch_declared] at h
  | succ fuel ih =>
    intro wl cat q out r h hs
    unfold fetch_declared at h
    by_cases hwl : wl.isEmpty
    · rw [if_pos hwl] at h
      simp only [Option.some_inj] at h
      rw [← h]
      exact hs
    · rw [if_neg hwl] at h
      cases hd : drainWorklist server wl cat q with
      | error t =>
        obtain ⟨e, cat', q'⟩ := t
        rw [hd] at h
        simp only [Option.some_inj] at h
        rw [← h]
        exact (drainWorklist_settled server wl cat q r hs).2 e cat' q' hd
      | ok t =>
        obtain ⟨cat', q'⟩ := t
        rw [hd] at h
        exact ih (get_unfetched cat') cat' q' out r h
          ((drainWorklist_settled server wl cat q r hs).1 cat' q' hd)

theorem maybeFetchRest_settled (server : PgServer) (fuel : Nat)
    (conn : PgConnectionState) (oid : Nat)
    (cached : Option (Except GetPgTypeError PgType)) (wl : List PgTypeRef)
    (out : ResolveOutcome) (r : PgTypeRef)
    (h : maybeFetchRest server fuel conn oid cached wl = some out)
    (hs : SettledAt conn.local_catalog r) : SettledAt out.conn.local_catalog r := by
  unfold maybeFetchRest at h
  by_cases hft : conn.fetching_types
  · rw [if_pos hft] at h
    simp only [Option.some_inj] at h
    rw [← h, finishResolve_conn]
    exact hs
  · rw [if_neg hft] at h
    cases hfd : fetch_declared server fuel wl conn.local_catalog 0 with
    | none => rw [hfd] at h; simp at h
    | some fout =>
      rw [hfd] at h
      have hsf : SettledAt fout.cat r :=
        fetch_declared_settled server fuel wl conn.local_catalog 0 fout r hfd hs
      obtain ⟨res, fcat, fq⟩ := fout
      cases res with
      | error e =>
        simp only [Option.some_inj] at h
        rw [← h]
        exact hsf
      | ok u =>
        simp only [Option.some_inj] at h
        rw [← h, finishResolve_conn]
        exact hsf

theorem maybe_fetch_settled (server : PgServer) (fuel : Nat)
    (conn : PgConnectionState) (oid : Nat) (out : ResolveOutcome) (r : PgTypeRef)
    (h : maybe_fetch_type_info_by_oid server fuel conn oid = some out)
    (hs : SettledAt conn.local_catalog r) : SettledAt out.conn.local_catalog r := by
  unfold maybe_fetch_type_info_by_oid at h
  cases hres : resolve_type_info conn.local_catalog (.oid oid) with
  | ok ty =>
    rw [hres] at h
    by_cases hu : (get_unfetched conn.local_catalog).isEmpty
    · simp only [hu, if_true, Option.some_inj] at h
      rw [← h]
      exact hs
    · simp only [hu, Bool.false_eq_true, if_false] at h
      exact maybeFetchRest_settled server fuel conn oid _ _ out r h hs
  | error e =>
    rw [hres] at h
    cases e with
    | missing =>
      by_cases hu : (get_unfetched conn.local_catalog).isEmpty
      · simp only [hu, if_true, Option.some_inj] at h
        rw [← h]
        exact hs
      · simp only [hu, Bool.false_eq_true, if_false] at h
        exact maybeFetchRest_settled server fuel conn oid _ _ out r h hs
    | undeclared => exact maybeFetchRest_settled server fuel conn oid _ _ out r h hs
    | unfetched => exact maybeFetchRest_settled server fuel conn oid _ _ out r h hs

/-- C5: a reference flagged Missing is sticky — (1) when the catalog
holds no Unfetched entries, `maybe_fetch_type_info_by_oid` on a Missing
OID returns `TypeNotFound` immediately, with zero catalog queries and an
unchanged connection state; (2) across any `maybe_fetch_type_info_by_oid`
call, an entry that was Missing never becomes Unfetched. -/
theorem missing_is_sticky :
    (∀ (server : PgServer) (fuel : Nat) (cat : LocalPgCatalog) (ft : Bool)
      (oid : Nat),
      lookupEntry cat (.oid oid) = some .missing → get_unfetched cat = [] →
      maybe_fetch_type_info_by_oid server fuel ⟨cat, ft⟩ oid =
        some ⟨.error (.typeNotFound (.oid oid)), ⟨cat, ft⟩, 0⟩)
    ∧ (∀ (server : PgServer) (fuel : Nat) (conn : PgConnectionState) (oid : Nat)
      (out : ResolveOutcome) (r : PgTypeRef),
      maybe_fetch_type_info_by_oid server fuel conn oid = some out →
      lookupEntry conn.local_catalog r = some .missing →
      lookupEntry out.conn.local_catalog r ≠ some .unfetched) := by
  constructor
  · intro server fuel cat ft oid hm hu
    unfold maybe_fetch_type_info_by_oid
    simp [resolve_type_info, hm, hu]
  · intro server fuel conn oid out r h hm
    rcases maybe_fetch_settled server fuel conn oid out r h (Or.inl hm) with h' | ⟨t, h'⟩ <;>
      simp [h']

/-- Witness for C5: a catalog with OID 5 flagged Missing and nothing
pending fails fast, and the entry is still not Unfetched afterwards. -/
theorem missing_is_sticky_witness :
    maybe_fetch_type_info_by_oid (fun _ => .error .rowNotFound) 0
        ⟨[(.oid 5, .missing)], false⟩ 5 =
      some ⟨.error (.typeNotFound (.oid 5)), ⟨[(.oid 5, .missing)], false⟩, 0⟩
    ∧ lookupEntry
        ((⟨.error (.typeNotFound (.oid 5)), ⟨[(.oid 5, .missing)], false⟩, 0⟩ :
          ResolveOutcome)).conn.local_catalog (.oid 5) ≠ some .unfetched :=
  ⟨missing_is_sticky.1 (fun _ => .error .rowNotFound) 0 [(.oid 5, .missing)] false 5 rfl rfl,
   missing_is_sticky.2 (fun _ => .error .rowNotFound) 0 ⟨[(.oid 5, .missing)], false⟩ 5
     ⟨.error (.typeNotFound (.oid 5)), ⟨[(.oid 5, .missing)], false⟩, 0⟩ (.oid 5) rfl rfl⟩

/-! ## Worklist settlement (C3) -/

/-- Server oracle for the C3 counterexample: OID 1 has no catalog row,
OID 2 exists. -/
def cexServer : PgServer := fun r =>
  match r with
  | .oid 2 => .ok ⟨2, "t2", .simple⟩
  | _ => .error .rowNotFound

/-- C3 counterexample: with OIDs 1 and 2 both Unfetched and the catalog
query for OID 1 returning no row, `fetch_declared` flags OID 1 Missing
and returns the error immediately — OID 2 is left Unfetched, so not
every reference of the worklist is settled before the pass returns. -/
theorem fetch_declared_partial_settle_cex :
    fetch_declared cexServer 5 [.oid 1, .oid 2]
        [(.oid 1, .unfetched), (.oid 2, .unfetched)] 0 =
      some ⟨.error (.typeNotFound (.oid 1)),
        [(.oid 1, .missing), (.oid 2, .unfetched)], 1⟩
    ∧ lookupEntry [(.oid 1, .missing), (.oid 2, .unfetched)] (.oid 2) =
        some .unfetched :=
  ⟨rfl, rfl⟩

theorem drainWorklist_ok_present (server : PgServer) :
    ∀ (wl : List PgTypeRef) (cat : LocalPgCatalog) (q : Nat)
      (cat' : LocalPgCatalog) (q' : Nat),
      drainWorklist server wl cat q = .ok (cat', q') →
      ∀ (r : PgTypeRef) (st : PgEntryState), lookupEntry cat r = some st →
        ∃ st', lookupEntry cat' r = some st' := by
  intro wl
  induction wl with
  | nil =>
    intro cat q cat' q' h r st hl
    simp only [drainWorklist, Except.ok.injEq, Prod.mk.injEq] at h
    exact ⟨st, h.1 ▸ hl⟩
  | cons r0 rest ih =>
    intro cat q cat' q' h r st hl
    simp only [drainWorklist] at h
    cases hs : server r0 with
    | ok ty =>
      rw [hs] at h
      rcases lookup_insert_type_cases cat ty r st hl with h' | h'
      · exact ih (insert_type cat ty) (q + 1) cat' q' h r st h'
      · exact ih (insert_type cat ty) (q + 1) cat' q' h r _ h'
    | error e =>
      cases e <;> rw [hs] at h <;> simp at h

theorem fetch_declared_ok_settles (server : PgServer) :
    ∀ (fuel : Nat) (wl : List PgTypeRef) (cat : LocalPgCatalog) (q : Nat)
      (out : FetchOutcome),
      fetch_declared server fuel wl cat q = some out → out.result = .ok () →
      get_unfetched cat ⊆ wl →
      get_unfetched out.cat = []
      ∧ ∀ (r : PgTypeRef) (st : PgEntryState), lookupEntry cat r = some st →
          ∃ st', lookupEntry out.cat r = some st' ∧ st' ≠ .unfetched := by
  intro fuel
  induction fuel with
  | zero => intro wl cat q out h; simp [fetch_declared] at h
  | succ fuel ih =>
    intro wl cat q out h hok hsub
    unfold fetch_declared at h
    cases wl with
    | nil =>
      simp only [List.isEmpty_nil, if_true, Option.some_inj] at h
      have hcatnil : get_unfetched cat = [] := List.subset_nil.mp hsub
      constructor
      · rw [← h]
        exact hcatnil
      · intro r st hl
        refine ⟨st, by rw [← h]; exact hl, fun hst => ?_⟩
        exact get_unfetched_nil_lookup cat hcatnil r (hst ▸ hl)
    | cons w ws =>
      simp only [List.isEmpty_cons, Bool.false_eq_true, if_false] at h
      cases hd : drainWorklist server (w :: ws) cat q with
      | error t =>
        obtain ⟨e, cat', q'⟩ := t
        rw [hd] at h
        simp only [Option.some_inj] at h
        rw [← h] at hok
        simp at hok
      | ok t =>
        obtain ⟨cat', q'⟩ := t
        rw [hd] at h
        obtain ⟨h1, h2⟩ :=
          ih (get_unfetched cat') cat' q' out h hok (List.Subset.refl _)
        refine ⟨h1, fun r st hl => ?_⟩
        obtain ⟨st'', hl''⟩ :=
          drainWorklist_ok_present server (w :: ws) cat q cat' q' hd r st hl
        exact h2 r st'' hl''

/-- C3 (amended): during a fetch session, `fetch_declared` issues one
catalog query per drained reference and inserts each successful result as
Fetched, repeating on newly discovered Unfetched references — when it
returns `Ok`, no Unfetched entry remains and every reference present in
the starting catalog is settled (present and not Unfetched).  But a
row-not-found answer flags that one reference Missing and returns the
`TypeNotFound` error immediately, abandoning the rest of the worklist
(which can remain Unfetched, as the counterexample shows). -/
theorem fetch_declared_settlement :
    (∀ (server : PgServer) (fuel : Nat) (wl : List PgTypeRef)
      (cat : LocalPgCatalog) (q : Nat) (out : FetchOutcome),
      fetch_declared server fuel wl cat q = some out → out.result = .ok () →
      get_unfetched cat ⊆ wl →
      get_unfetched out.cat = []
      ∧ ∀ (r : PgTypeRef) (st : PgEntryState), lookupEntry cat r = some st →
          ∃ st', lookupEntry out.cat r = some st' ∧ st' ≠ .unfetched)
    ∧ (∀ (server : PgServer) (r : PgTypeRef) (rest : List PgTypeRef)
      (cat : LocalPgCatalog) (q : Nat),
      server r = .error .rowNotFound →
      drainWorklist server (r :: rest) cat q =
        .error (.typeNotFound r, flag_type_as_missing cat r, q + 1)) := by
  constructor
  · exact fun server => fetch_declared_ok_settles server
  · intro server r rest cat q h
    simp [drainWorklist, h]

/-- Server oracle for the C3 witness: every OID exists. -/
def okServer : PgServer := fun r =>
  match r with
  | .oid o => .ok ⟨o, "t", .simple⟩
  | .name _ => .error .rowNotFound

/-- Witness for C3 (amended): a successful session over the worklist
`[oid 1]` settles the catalog, and a failing first fetch returns the
flagged error immediately. -/
theorem fetch_declared_settlement_witness :
    (get_unfetched
        ((⟨.ok (), [(.oid 1, .fetched ⟨1, "t", .simple⟩)], 1⟩ : FetchOutcome)).cat = []
      ∧ ∀ (r : PgTypeRef) (st : PgEntryState),
          lookupEntry [(.oid 1, .unfetched)] r = some st →
          ∃ st', lookupEntry
              ((⟨.ok (), [(.oid 1, .fetched ⟨1, "t", .simple⟩)], 1⟩ :
                FetchOutcome)).cat r = some st' ∧ st' ≠ .unfetched)
    ∧ drainWorklist cexServer [.oid 1] [] 0 =
        .error (.typeNotFound (.oid 1), flag_type_as_missing [] (.oid 1), 0 + 1) :=
  ⟨fetch_declared_settlement.1 okServer 2 [.oid 1] [(.oid 1, .unfetched)] 0
      ⟨.ok (), [(.oid 1, .fetched ⟨1, "t", .simple⟩)], 1⟩ rfl rfl (fun _ ha => ha),
   fetch_declared_settlement.2 cexServer (.oid 1) [] [] 0 rfl⟩

end Sqlx
